import Mathlib

/-!
Verification development for the neomer_db_back HTTP query gateway
(files `server.go` and the unnamed Go source `part_000`).

The Go source is shallowly embedded: each string-manipulating helper
(`cleanColumnName`, `removeParentheses`, `isNumericColumn`, the filter
compiler loops of `getNullomersHandler`, the special-filter subquery
builders, pagination parsing) is translated to an executable Lean
function over `String` / `List Char`, and the SQL queries issued by the
Jaccard endpoints are given a relational denotation over lists of rows
(bag semantics; `GROUP BY` becomes grouping over the list of distinct
keys, `COUNT(DISTINCT _)` becomes `List.dedup.length`, `ORDER BY`
becomes sorting by the lexicographic order on label pairs).

Go primitives (`strings.Split`, `strings.Fields`, `strconv.Atoi`,
`fmt.Sprintf` with `%s`/`%d` verbs) are modelled by structurally
recursive Lean functions so that all definitions evaluate by kernel
reduction. Numeric SQL expressions (`ROUND`, division) are modelled
over `ℚ`, with `ROUND(x, d)` as round-half-away-from-zero at `d`
decimal digits, DuckDB's rounding rule.
-/

namespace NeomerDB

/-! ## Go string primitives -/

/-- Whitespace test used by Go `strings.Fields` (`unicode.IsSpace` on the
Latin-1 range, which covers the query strings this API receives). -/
def goIsSpace (c : Char) : Bool :=
  c = ' ' || c = '\t' || c = '\n' || c = '\x0b' || c = '\x0c' || c = '\r' ||
  c = '\u0085' || c = '\u00A0'

/-- Split a character list at every character satisfying `p`
(single-character separators, empty pieces kept). -/
def splitAnyAux (p : Char → Bool) : List Char → List Char → List (List Char)
  | [], acc => [acc.reverse]
  | c :: rest, acc =>
    if p c then acc.reverse :: splitAnyAux p rest []
    else splitAnyAux p rest (c :: acc)

/-- Go `strings.Fields`: split on whitespace runs, dropping empty fields. -/
def goFields (s : String) : List String :=
  ((splitAnyAux goIsSpace s.data []).filter (fun t => t ≠ [])).map String.mk

/-- Fuel-driven worker for `goSplit`. The fuel starts at the length of the
input, which the recursion never exhausts, and makes the definition
structurally recursive so that it reduces in the kernel. -/
def goSplitAux (sep : List Char) : Nat → List Char → List Char → List (List Char)
  | 0, s, acc => [acc.reverse ++ s]
  | _ + 1, [], acc => [acc.reverse]
  | fuel + 1, c :: rest, acc =>
    if sep.isPrefixOf (c :: rest) then
      acc.reverse :: goSplitAux sep fuel (List.drop (sep.length - 1) rest) []
    else goSplitAux sep fuel rest (c :: acc)

/-- Go `strings.Split s sep` for a nonempty separator: cut `s` at each
occurrence of `sep` (leftmost-first, non-overlapping). -/
def goSplit (s sep : String) : List String :=
  (goSplitAux sep.data s.data.length s.data []).map String.mk

/-- Go `strings.Join`. -/
def goJoin (sep : String) : List String → String
  | [] => ""
  | [x] => x
  | x :: xs => x ++ sep ++ goJoin sep xs

/-- Decimal digit value of a character, if it is a digit. -/
def digitVal (c : Char) : Option Nat :=
  if '0' ≤ c ∧ c ≤ '9' then some (c.toNat - '0'.toNat) else none

/-- Value of a nonempty all-digit character list; `none` on empty input or
on any non-digit character. -/
def digitsVal : List Char → Option Nat
  | [] => none
  | [c] => digitVal c
  | c :: rest =>
    match digitVal c, digitsVal rest with
    | some d, some n => some (d * 10 ^ rest.length + n)
    | _, _ => none

/-- Largest value of Go's 64-bit `int`. -/
def int64Max : Int := 2 ^ 63 - 1

/-- Go `strconv.Atoi`: an optional sign followed by at least one decimal
digit, rejecting anything else and values outside the 64-bit `int` range. -/
def goAtoi (s : String) : Option Int :=
  match s.data with
  | [] => none
  | '+' :: ds =>
    (digitsVal ds).bind fun n => if (n : Int) ≤ int64Max then some (n : Int) else none
  | '-' :: ds =>
    (digitsVal ds).bind fun n => if (n : Int) ≤ 2 ^ 63 then some (-(n : Int)) else none
  | ds =>
    (digitsVal ds).bind fun n => if (n : Int) ≤ int64Max then some (n : Int) else none

/-- Character class kept by `cleanColumnName`'s regular expression
`[^a-zA-Z0-9_]` (everything else is removed). -/
def isWordChar (c : Char) : Bool :=
  ('a' ≤ c && c ≤ 'z') || ('A' ≤ c && c ≤ 'Z') || ('0' ≤ c && c ≤ '9') || c = '_'

/-- Go `strings.TrimSpace` (trim leading and trailing whitespace). -/
def goTrimSpace (s : String) : String :=
  String.mk (((s.data.dropWhile goIsSpace).reverse.dropWhile goIsSpace).reverse)

/-- Decimal digits of a natural number, most significant first
(fuel-driven to stay structurally recursive). -/
def natDigits : Nat → Nat → List Char
  | 0, _ => []
  | _ + 1, 0 => []
  | fuel + 1, n => natDigits fuel (n / 10) ++ [Char.ofNat ('0'.toNat + n % 10)]

/-- Decimal rendering of a natural number (Go `fmt` verb `%d`). -/
def natToStr (n : Nat) : String :=
  if n = 0 then "0" else String.mk (natDigits (n + 1) n)

/-- Decimal rendering of an integer (Go `fmt` verb `%d`). -/
def intToStr (i : Int) : String :=
  if i < 0 then "-" ++ natToStr (-i).toNat else natToStr i.toNat

/-- Substring test over character lists (structurally recursive). -/
def infixCheck : List Char → List Char → Bool
  | n, [] => n.isEmpty
  | n, c :: rest => n.isPrefixOf (c :: rest) || infixCheck n rest

/-- Whether `needle` occurs as a contiguous substring of `hay`. -/
def occursIn (needle hay : String) : Bool :=
  infixCheck needle.data hay.data

/-! ## Identifier sanitizer and numeric allow-list (`part_000` 637-675) -/

/-- Go `removeParentheses`: delete every `(` and `)` character
(regexp `[()]` replaced by the empty string). -/
def removeParentheses (input : String) : String :=
  String.mk (input.data.filter (fun c => !(c = '(' || c = ')')))

/-- Go `cleanColumnName`: keep only letters, digits and underscore
(regexp `[^a-zA-Z0-9_]` removed), then trim whitespace. -/
def cleanColumnName (column : String) : String :=
  goTrimSpace (String.mk (column.data.filter isWordChar))

/-- The column-type table hard-coded in Go `isNumericColumn`. -/
def columnTypes : List (String × String) :=
  [("donor_age_at_diagnosis", "BIGINT"),
   ("gc_content", "FLOAT"),
   ("nullomers_created", "VARCHAR"),
   ("donor_id", "VARCHAR"),
   ("AF", "FLOAT"),
   ("AF_eas", "FLOAT"),
   ("AF_afr", "FLOAT"),
   ("AF_fin", "FLOAT"),
   ("AF_ami", "FLOAT"),
   ("AF_amr", "FLOAT"),
   ("AF_nfe", "FLOAT"),
   ("AF_sas", "FLOAT"),
   ("AF_asj", "FLOAT")]

/-- The numeric SQL types recognized in Go `isNumericColumn`. -/
def numericTypes : List String := ["BIGINT", "INTEGER", "FLOAT", "DOUBLE"]

/-- Go `isNumericColumn`: clean the token, look its type up in
`columnTypes`, and report whether that type is numeric. -/
def isNumericColumn (column : String) : Bool :=
  match columnTypes.find? (fun e => e.1 = cleanColumnName column) with
  | some e => numericTypes.contains e.2
  | none => false

/-! ## Filter compiler of `getNullomersHandler` (`part_000` 450-634) -/

/-- The rewritten condition `CAST("col" AS FLOAT) op value` produced for
numeric columns in the legacy filter channel. -/
def castCondition (col op val : String) : String :=
  "CAST(\"" ++ col ++ "\" AS FLOAT) " ++ op ++ " " ++ val

/-- The legacy `filters` channel (`part_000` 519-532): split the string on
the literal token `" AND "`, whitespace-tokenize each condition, drop
conditions with fewer than 3 fields, and rewrite numeric-column
conditions to a `CAST` comparison, translated clause by clause from the
Go `for` loop (`whereClauses = append(whereClauses, cond)`). -/
def legacyWhereClauses (filters : String) : List String :=
  (goSplit filters " AND ").foldl
    (fun acc cond =>
      if (goFields cond).length ≥ 3 then
        acc ++
          [if isNumericColumn (cleanColumnName ((goFields cond).getD 0 "")) then
            castCondition (cleanColumnName ((goFields cond).getD 0 ""))
              ((goFields cond).getD 1 "")
              (removeParentheses ((goFields cond).getD 2 ""))
          else cond]
      else acc)
    []

/-- The single between-range predicate
`CAST("col" AS FLOAT) >= min AND CAST("col" AS FLOAT) <= max`
(`part_000` 512-517); the column is interpolated exactly as received. -/
def betweenClause (column minVal maxVal : String) : String :=
  "CAST(\"" ++ column ++ "\" AS FLOAT) >= " ++ minVal ++
  " AND CAST(\"" ++ column ++ "\" AS FLOAT) <= " ++ maxVal

/-- The between channel of `getNullomersHandler` (`part_000` 507-518): only
a comma-separated value with exactly two parts yields a clause. -/
def betweenClauses (column filterValue : String) : List String :=
  if (goSplit filterValue ",").length = 2 then
    [betweenClause column ((goSplit filterValue ",").getD 0 "")
      ((goSplit filterValue ",").getD 1 "")]
  else []

/-- The `at_least_X_distinct_patients` subquery of the paginated handler
(`part_000` 540-549), `fmt.Sprintf` with the length and threshold
interpolated. -/
def specialSubquery (length : String) (n : Int) : String :=
  "\n                        nullomers_created IN (\n                            SELECT nullomers_created\n                            FROM neomers_" ++ length ++
  "\n                            JOIN cancer_type_details USING (Project_Code)\n                            LEFT JOIN donor_id_mapping di ON CAST(n.\"Donor_ID\" AS INT) = di.\"Donor_ID\"\n                            LEFT JOIN donor_data d ON di.Actual_Donor_ID = d.icgc_donor_id\n                            GROUP BY nullomers_created\n                            HAVING COUNT(DISTINCT donor_id) >= " ++
  intToStr n ++ "\n                        )"

/-- The `specialFilters` channel of the paginated handler (`part_000`
535-554): pipe-separated directives, each semicolon-split; only
`at_least_X_distinct_patients;<N>` with `N` a positive parsed integer
appends the subquery predicate built by `specialSubquery`. -/
def specialClauses (subq : String → Int → String) (specialFilters length : String) :
    List String :=
  if specialFilters ≠ "" then
    (goSplit specialFilters "|").foldl
      (fun acc part =>
        if (goSplit part ";").getD 0 "" = "at_least_X_distinct_patients" ∧
            (goSplit part ";").length = 2 then
          match goAtoi ((goSplit part ";").getD 1 "") with
          | some n => if n > 0 then acc ++ [subq length n] else acc
          | none => acc
        else acc)
      []
  else []

/-- The combined WHERE-clause list of `getNullomersHandler` (`part_000`
503-554): the between channel wins over the legacy channel when
`filterType`, `column` and `value` are all present; the special-filter
clauses are appended afterwards. -/
def whereClausesOf (filterType column filterValue filters specialFilters length : String) :
    List String :=
  (if filterType = "between" ∧ column ≠ "" ∧ filterValue ≠ "" then
    betweenClauses column filterValue
  else if filters ≠ "" then legacyWhereClauses filters
  else [])
  ++ specialClauses specialSubquery specialFilters length

/-- Final WHERE string (`part_000` 556-559): empty when no clause was
produced, else `" WHERE "` followed by the clauses joined with `" AND "`. -/
def finalWhereOf (clauses : List String) : String :=
  if clauses = [] then "" else " WHERE " ++ goJoin " AND " clauses

/-! ## Pagination and query assembly of `getNullomersHandler` -/

/-- Page parameter (`part_000` 469-473): default 0, replaced only by a
parsed value that is at least 0. -/
def pageOf (pageStr : String) : Int :=
  match goAtoi pageStr with
  | some p => if p ≥ 0 then p else 0
  | none => 0

/-- Limit parameter (`part_000` 470-476): default 10000, replaced only by
a parsed value in (0, 10000]. -/
def limitOf (limitStr : String) : Int :=
  match goAtoi limitStr with
  | some l => if l > 0 ∧ l ≤ 10000 then l else 10000
  | none => 10000

/-- Two's-complement wraparound of Go's 64-bit `int` arithmetic: the
result of an `int` operation is reduced into [-2^63, 2^63). -/
def int64Wrap (i : Int) : Int :=
  (i + 2 ^ 63) % 2 ^ 64 - 2 ^ 63

/-- The base CTE query of the paginated handler (`part_000` 479-501),
`fmt.Sprintf` with the raw `length` parameter interpolated in the
table name. -/
def baseQuery (length : String) : String :=
  "\n        WITH base AS (\n            SELECT\n                n.* EXCLUDE (Donor_ID),\n                c.*,\n                d.*,\n                di.Tumor_Sample_Barcode,\n                di.Matched_Norm_Sample_Barcode,\n                ROUND(\n                    100.0 * (\n                        LENGTH(n.nullomers_created)\n                        - LENGTH(REPLACE(UPPER(n.nullomers_created), 'G', ''))\n                        - LENGTH(REPLACE(UPPER(n.nullomers_created), 'C', ''))\n                    ) / LENGTH(n.nullomers_created),\n                    2\n                ) * -1 AS gc_content\n            FROM neomers_" ++
  length ++
  " n\n            JOIN cancer_type_details c USING (Project_Code)\n            LEFT JOIN donor_id_mapping di ON CAST(n.\"Donor_ID\" AS INT) = di.\"Donor_ID\"\n            LEFT JOIN donor_data d ON di.Actual_Donor_ID = d.icgc_donor_id\n        )\n        SELECT * FROM base\n    "

/-- The COUNT query of the paginated handler (`part_000` 563-584), built
with the same WHERE string as the data query. -/
def countQuery (length finalWhere : String) : String :=
  "\n        WITH base AS (\n            SELECT\n                n.*,\n                c.*,\n                d.*,\n                ROUND(\n                    100.0 * (\n                        LENGTH(n.nullomers_created)\n                        - LENGTH(REPLACE(UPPER(n.nullomers_created), 'G', ''))\n                        - LENGTH(REPLACE(UPPER(n.nullomers_created), 'C', ''))\n                    ) / LENGTH(n.nullomers_created),\n                    2\n                ) * -1 AS gc_content\n            FROM neomers_" ++
  length ++
  " n\n            JOIN cancer_type_details c USING (Project_Code)\n            LEFT JOIN donor_id_mapping di ON CAST(n.\"Donor_ID\" AS INT) = di.\"Donor_ID\"\n            LEFT JOIN donor_data d ON di.Actual_Donor_ID = d.icgc_donor_id\n        )\n        SELECT COUNT(*) FROM base\n        " ++
  finalWhere ++ "\n    "

/-- The data-page query (`part_000` 593-594):
`fmt.Sprintf("%s %s LIMIT %d OFFSET %d", baseQuery, finalWhere, limit, offset)`. -/
def pageQuery (length finalWhere : String) (limit offset : Int) : String :=
  baseQuery length ++ " " ++ finalWhere ++ " LIMIT " ++ intToStr limit ++
  " OFFSET " ++ intToStr offset

/-- Full request-processing outcome of `getNullomersHandler` up to query
execution (`part_000` 450-594): a 400 error when `length` is missing,
otherwise the COUNT query and the LIMIT/OFFSET data query it sends to
the database. `offset := page * limit` (`part_000` 593) is Go `int`
multiplication, which wraps at 64 bits — hence the `int64Wrap`. -/
def nullomersOutcome (length pageStr limitStr filterType column filterValue
    filters specialFilters : String) : Except String (String × String) :=
  if length = "" then .error "Missing required parameter 'length'"
  else
    .ok (countQuery length
          (finalWhereOf (whereClausesOf filterType column filterValue filters
            specialFilters length)),
         pageQuery length
          (finalWhereOf (whereClausesOf filterType column filterValue filters
            specialFilters length))
          (limitOf limitStr) (int64Wrap (pageOf pageStr * limitOf limitStr)))

/-! ## Stats handler of `server.go` (`getNullomersStatsHandler`, 1346-1477) -/

/-- The base CTE of `server.go`'s `getNullomersStatsHandler` (1377-1396):
its donor bridge is `LEFT JOIN donor_id_mapping`. -/
def statsBaseCTE (length : String) : String :=
  "\n        WITH base AS (\n            SELECT\n                n.* EXCLUDE (Donor_ID),\n                c.*,\n                d.*,\n                di.Tumor_Sample_Barcode, di.Matched_Norm_Sample_Barcode,\n                ROUND(\n                    100.0 * (\n                        LENGTH(n.nullomers_created)\n                        - LENGTH(REPLACE(UPPER(n.nullomers_created), 'G', ''))\n                        - LENGTH(REPLACE(UPPER(n.nullomers_created), 'C', ''))\n                    ) / LENGTH(n.nullomers_created),\n                    2\n                ) * -1 AS gc_content\n            FROM neomers_" ++
  length ++
  " n\n            JOIN cancer_type_details c USING (Project_Code)\n            LEFT JOIN donor_id_mapping di ON CAST(n.\"Donor_ID\" AS INT) = di.\"Donor_ID\"\n            LEFT JOIN donor_data d ON di.Actual_Donor_ID = d.icgc_donor_id)           \n    "

/-- The `at_least_X_distinct_patients` subquery of `server.go`'s
`getNullomersStatsHandler` (1425-1435): its donor bridge is
`LEFT JOIN exomes_donor_id_mapping`. -/
def statsSpecialSubquery (length : String) (n : Int) : String :=
  "\n                            nullomers_created IN (\n                                SELECT nullomers_created\n                                FROM neomers_" ++
  length ++
  "\n                                JOIN cancer_type_details USING (Project_Code)\n                                LEFT JOIN exomes_donor_id_mapping di ON CAST(n.\"Donor_ID\" AS INT) = di.\"Donor_ID\"\n                                LEFT JOIN donor_data d ON di.Actual_Donor_ID = d.icgc_donor_id\n                                GROUP BY nullomers_created\n                                HAVING COUNT(DISTINCT donor_id) >= " ++
  intToStr n ++ "\n                            )\n                        "

/-! ## Jaccard endpoint precheck (`part_000` 1573-1587 and 1704-1718) -/

/-- Parameter validation of the Jaccard handlers: a 400 error exactly when
`K` is empty, fails `strconv.Atoi`, or is the literal string "0";
otherwise the handler proceeds with table name `neomers_<K>`. -/
def jaccardPrecheck (K : String) : Except String String :=
  if K = "" then .error "Missing parameter 'K'"
  else if (goAtoi K).isNone ∨ K = "0" then
    .error "Parameter 'K' must be a positive integer"
  else .ok ("neomers_" ++ K)

/-! ## Numeric SQL semantics -/

/-- DuckDB `ROUND(q, d)`: round half away from zero at `d` decimal
digits, modelled over `ℚ`. -/
def sqlRound (d : Nat) (q : ℚ) : ℚ :=
  if 0 ≤ q then (⌊q * 10 ^ d + 1 / 2⌋ : ℚ) / 10 ^ d
  else -((⌊-q * 10 ^ d + 1 / 2⌋ : ℚ) / 10 ^ d)

/-- SQL `UPPER` (ASCII relevant for nucleotide sequences). -/
def sqlUpper (s : String) : String :=
  String.mk (s.data.map Char.toUpper)

/-- SQL `REPLACE(s, c, '')`: delete every occurrence of the character. -/
def sqlDeleteChar (c : Char) (s : String) : String :=
  String.mk (s.data.filter (fun x => x ≠ c))

/-- The derived `gc_content` column computed by the nullomer queries
(`part_000` 487-494 and `server.go` 168-175):
`ROUND(100.0 * (LENGTH(s) - LENGTH(REPLACE(UPPER(s),'G','')) -
LENGTH(REPLACE(UPPER(s),'C',''))) / LENGTH(s), 2) * -1`. -/
def gc_content (s : String) : ℚ :=
  sqlRound 2
    (100 * ((s.length : ℚ) - ((sqlDeleteChar 'G' (sqlUpper s)).length : ℚ)
      - ((sqlDeleteChar 'C' (sqlUpper s)).length : ℚ)) / (s.length : ℚ)) * (-1)

/-- The gc_content formula as the specification words it (for comparison
with the code's `gc_content`): `-1 × round(100 × (G_count + C_count) /
length, 2)` over the sequence text, case-insensitive. -/
def specStatedGcContent (s : String) : ℚ :=
  -1 * sqlRound 2
    (100 * (((sqlUpper s).data.count 'G' : ℚ) + ((sqlUpper s).data.count 'C' : ℚ))
      / (s.length : ℚ))

/-! ## Lexicographic string order used to denote `ORDER BY` -/

/-- Lexicographic less-or-equal on character lists (binary collation). -/
def lexLe : List Char → List Char → Bool
  | [], _ => true
  | _ :: _, [] => false
  | a :: as, b :: bs => if a < b then true else if b < a then false else lexLe as bs

/-- Lexicographic order on label pairs: compare first components, break
ties on the second — the denotation of `ORDER BY A, B`. -/
def pairLe (p q : String × String) : Bool :=
  if p.1 = q.1 then lexLe p.2.data q.2.data else lexLe p.1.data q.1.data

/-! ## Relational denotation of the Jaccard queries
(`part_000` 1595-1647 for cancer types, 1726-1778 for organs) -/

/-- One row of a per-length nullomer table (the columns the Jaccard query
reads). -/
structure NeomerRow where
  nullomers_created : String
  project_Code : String
deriving DecidableEq

/-- One row of `cancer_type_details`. -/
structure CancerTypeRow where
  project_Code : String
  cancer_Type : String
  organ : String
deriving DecidableEq

/-- CTE `joined_data`: `SELECT n.nullomers_created, c.<label> FROM
neomers_K n JOIN cancer_type_details c USING (Project_Code)`, with the
label column being `Cancer_Type` for one endpoint and `Organ` for the
other. -/
def joined_data (ns : List NeomerRow) (cs : List CancerTypeRow)
    (lab : CancerTypeRow → String) : List (String × String) :=
  (ns ×ˢ cs).filterMap fun p =>
    if p.1.project_Code = p.2.project_Code then
      some (p.1.nullomers_created, lab p.2)
    else none

/-- CTE `cancer_counts` (resp. `organ_counts`): per-label
`COUNT(DISTINCT nullomers_created)`, one entry per distinct label. -/
def label_counts (jd : List (String × String)) : List (String × Nat) :=
  ((jd.map Prod.snd).dedup).map fun A =>
    (A, ((jd.filter (fun r => r.2 = A)).map Prod.fst).dedup.length)

/-- CTE `all_cancer_types` (resp. `all_organs`): the distinct labels. -/
def all_labels (jd : List (String × String)) : List String :=
  ((label_counts jd).map Prod.fst).dedup

/-- CTE `pairs`: the full cross product of the distinct labels. -/
def label_pairs (jd : List (String × String)) : List (String × String) :=
  all_labels jd ×ˢ all_labels jd

/-- The self join `joined_data jd1 JOIN joined_data jd2 ON
jd1.nullomers_created = jd2.nullomers_created`. -/
def self_join (jd : List (String × String)) :
    List ((String × String) × String × String) :=
  (jd ×ˢ jd).filter fun p => p.1.1 = p.2.1

/-- CTE `intersections`: group the self join by the two labels and count
distinct shared sequences per group. -/
def intersections (jd : List (String × String)) :
    List ((String × String) × Nat) :=
  (((self_join jd).map fun p => (p.1.2, p.2.2)).dedup).map fun ab =>
    (ab,
      (((self_join jd).filter fun p => p.1.2 = ab.1 ∧ p.2.2 = ab.2).map
        fun p => p.1.1).dedup.length)

/-- The final SELECT's `LEFT JOIN intersections ... COALESCE(
i.intersection_count, 0)`: look the pair up among the grouped
intersection counts, defaulting to 0 when the pair has no group. -/
def intersectionOf (jd : List (String × String)) (a b : String) : Nat :=
  match (intersections jd).find? (fun e => e.1.1 = a ∧ e.1.2 = b) with
  | some e => e.2
  | none => 0

/-- The final SELECT's `JOIN cancer_counts` (unique-key lookup of a
label's distinct-sequence count). -/
def countOf (jd : List (String × String)) (a : String) : Nat :=
  match (label_counts jd).find? (fun e => e.1 = a) with
  | some e => e.2
  | none => 0

/-- One output row of the Jaccard endpoints. -/
structure JaccardRow where
  label_A : String
  label_B : String
  intersection_count : Nat
  union_count : Int
  jaccard_index : ℚ
deriving DecidableEq

/-- One output row of the final SELECT (`part_000` 1624-1645) for the pair
`p`: `union = c1.count + c2.count - COALESCE(i, 0)` and the three-way
CASE for the Jaccard index. -/
def jaccardRowOf (jd : List (String × String)) (p : String × String) : JaccardRow :=
  let i := intersectionOf jd p.1 p.2
  let u : Int := (countOf jd p.1 : Int) + (countOf jd p.2 : Int) - (i : Int)
  { label_A := p.1
    label_B := p.2
    intersection_count := i
    union_count := u
    jaccard_index :=
      if p.1 = p.2 then 1
      else if u = 0 then 0
      else sqlRound 4 ((i : ℚ) / (u : ℚ)) }

/-- The final SELECT list: one row per element of the pair cross product. -/
def jaccardRowsUnsorted (jd : List (String × String)) : List JaccardRow :=
  (label_pairs jd).map (jaccardRowOf jd)

/-- Row order of `ORDER BY <label>_A, <label>_B`. -/
def rowLe (r s : JaccardRow) : Prop :=
  pairLe (r.label_A, r.label_B) (s.label_A, s.label_B) = true

instance : DecidableRel rowLe := fun _ _ => instDecidableEqBool _ _

/-- The full result set of a Jaccard endpoint: the rows of the final
SELECT sorted by `ORDER BY` on the label pair. -/
def jaccardQuery (jd : List (String × String)) : List JaccardRow :=
  List.insertionSort rowLe (jaccardRowsUnsorted jd)

/-- Specification-side count: the number of distinct sequences associated
with label `a` in the dataset. -/
def distinctSeqCount (jd : List (String × String)) (a : String) : Nat :=
  ((jd.filter (fun r => r.2 = a)).map Prod.fst).toFinset.card

/-- Specification-side count: the number of distinct sequences shared by
labels `a` and `b` in the dataset. -/
def sharedSeqCount (jd : List (String × String)) (a b : String) : Nat :=
  (((jd.filter (fun r => r.2 = a)).map Prod.fst).toFinset ∩
    ((jd.filter (fun r => r.2 = b)).map Prod.fst).toFinset).card

/-! ## Result materializer (`makeHandler`, `part_000` 395-420, and the row
loop of `getNullomersHandler`, `part_000` 608-628) -/

/-- A cell value as returned by the tabular executor. Go strings are byte
sequences, so both the raw `[]byte` form and the `string` form carry
a byte list; the other scalar shapes are opaque to the materializer. -/
inductive DBValue where
  | bytes (bs : List UInt8)
  | strV (bs : List UInt8)
  | intV (n : Int)
  | floatV (q : ℚ)
  | boolV (b : Bool)
  | null
deriving DecidableEq

/-- Whether a cell still carries the executor's raw byte-array form. -/
def DBValue.isBytes : DBValue → Bool
  | .bytes _ => true
  | _ => false

/-- The per-cell conversion of the row loops: `[]byte` becomes the
equivalent string (`row[i] = string(b)`), `nil` stays `nil`
(`if v == nil { row[i] = nil }`), everything else passes through. -/
def materializeCell : DBValue → DBValue
  | .bytes bs => .strV bs
  | .null => .null
  | v => v

/-- A serialized tabular response: headers plus materialized data rows. -/
structure TabularResponse where
  headers : List String
  data : List (List DBValue)
deriving DecidableEq

/-- The response assembly of `makeHandler` and `getNullomersHandler`: the
headers are the executor's column names unchanged, and every cell of
every row goes through `materializeCell`. -/
def materializeResponse (cols : List String) (rows : List (List DBValue)) :
    TabularResponse :=
  { headers := cols, data := rows.map (fun row => row.map materializeCell) }

/-! ## Patient-details lookup (`getPatientDetailsHandler`, `part_000`
1257-1338) -/

/-- The database interactions `getPatientDetailsHandler` performs, as
oracle functions: the `donor_id_mapping` lookup, the `neomers_15`
project lookup, the `donor_data` column-name probe, and the final
joined single-row fetch keyed by project code and donor id. -/
structure PatientDb where
  mapActualToInternal : String → Option Int
  projectOf : Int → Option String
  donorDataColumns : Option (List String)
  detailsRow : String → String → Option (List DBValue)

/-- Response of the patient-details endpoint: 400, 500 or 200; a 200
carries `"patient": null` (`none`) or the patient object, an
association of column names to cell values. -/
inductive PatientResponse where
  | badRequest (msg : String)
  | serverError (msg : String)
  | okPatient (patient : Option (List (String × DBValue)))
deriving DecidableEq

/-- The `patientMap` cell conversion (`part_000` 1327-1335): byte slices
become strings, everything else is stored as is. -/
def patientCell : DBValue → DBValue
  | .bytes bs => .strV bs
  | v => v

/-- Declarative per-condition description of the legacy filter channel,
to be proved equal to the imperative loop `legacyWhereClauses`: a
condition with at least three whitespace fields is kept (rewritten to a
`CAST` comparison when its sanitized column is numeric, untouched
otherwise), and any shorter condition is dropped. -/
def legacyConditionSpec (cond : String) : Option String :=
  match goFields cond with
  | c0 :: c1 :: c2 :: _ =>
    some
      (if isNumericColumn (cleanColumnName c0) then
        castCondition (cleanColumnName c0) c1 (removeParentheses c2)
      else cond)
  | _ => none

/-- Declarative per-directive description of the special-filter channel,
to be proved equal to the imperative loop `specialClauses`: only
`at_least_X_distinct_patients;<N>` with a positive parsed `N` yields
the subquery predicate. -/
def specialDirectiveSpec (subq : String → Int → String) (length part : String) :
    Option String :=
  match goSplit part ";" with
  | [name, arg] =>
    if name = "at_least_X_distinct_patients" then
      match goAtoi arg with
      | some n => if 0 < n then some (subq length n) else none
      | none => none
    else none
  | _ => none

/-- Control flow of `getPatientDetailsHandler`: missing parameter gives a
400; a failed mapping lookup, a failed project lookup, or a failed
final row scan each give a 200 with a null patient; only a failure of
the column-name probe gives a 500. -/
def getPatientDetails (db : PatientDb) (donorId : String) : PatientResponse :=
  if donorId = "" then .badRequest "Missing donor_id"
  else
    match db.mapActualToInternal donorId with
    | none => .okPatient none
    | some internalId =>
      match db.projectOf internalId with
      | none => .okPatient none
      | some projectCode =>
        match db.donorDataColumns with
        | none => .serverError "column probe failed"
        | some colNames =>
          let colNames := colNames ++ ["Cancer_Type", "Organ"]
          match db.detailsRow projectCode donorId with
          | none => .okPatient none
          | some vals => .okPatient (some (colNames.zip (vals.map patientCell)))

/-! # Theorems -/

/-! ## Generic list lemmas -/

/-- A left fold that appends an optional element per input equals the
accumulator followed by a `filterMap`. -/
theorem foldl_opt_append {α β : Type} (g : α → Option β) (f : List β → α → List β)
    (hf : ∀ acc a, f acc a = acc ++ (g a).toList) (l : List α) (acc : List β) :
    l.foldl f acc = acc ++ l.filterMap g := by
  induction l generalizing acc with
  | nil => simp
  | cons a rest ih =>
    rw [List.foldl_cons, hf, ih, List.filterMap_cons]
    cases g a <;> simp

/-- Per-condition behaviour of the legacy-filter loop body. -/
theorem legacyBody_eq (acc : List String) (cond : String) :
    (if (goFields cond).length ≥ 3 then
      acc ++
        [if isNumericColumn (cleanColumnName ((goFields cond).getD 0 "")) then
          castCondition (cleanColumnName ((goFields cond).getD 0 ""))
            ((goFields cond).getD 1 "")
            (removeParentheses ((goFields cond).getD 2 ""))
        else cond]
    else acc) = acc ++ (legacyConditionSpec cond).toList := by
  rcases hf : goFields cond with _ | ⟨c0, _ | ⟨c1, _ | ⟨c2, cs⟩⟩⟩ <;>
    simp [legacyConditionSpec, hf]

/-- C3: the legacy filters compiler splits the filter string on the literal
token " AND ", whitespace-tokenizes each condition, silently drops any
condition with fewer than 3 fields, rewrites a condition whose sanitized
column is in the numeric allow-list to `CAST("column" AS FLOAT) operator
value` with parentheses stripped from the value token, and passes a
condition with a non-allow-listed column through unmodified. -/
theorem c3_legacy_filter_compilation (filters : String) :
    legacyWhereClauses filters =
      (goSplit filters " AND ").filterMap legacyConditionSpec
  ∧ (∀ cond, (goFields cond).length < 3 → legacyConditionSpec cond = none)
  ∧ (∀ cond c0 c1 c2 rest, goFields cond = c0 :: c1 :: c2 :: rest →
      isNumericColumn (cleanColumnName c0) = true →
      legacyConditionSpec cond =
        some ("CAST(\"" ++ cleanColumnName c0 ++ "\" AS FLOAT) " ++ c1 ++ " " ++
          removeParentheses c2))
  ∧ (∀ cond c0 c1 c2 rest, goFields cond = c0 :: c1 :: c2 :: rest →
      isNumericColumn (cleanColumnName c0) = false →
      legacyConditionSpec cond = some cond) := by
  refine ⟨?_, ?_, ?_, ?_⟩
  · exact foldl_opt_append legacyConditionSpec _ legacyBody_eq _ []
  · intro cond h
    rcases hf : goFields cond with _ | ⟨c0, _ | ⟨c1, _ | ⟨c2, cs⟩⟩⟩ <;>
      simp [legacyConditionSpec, hf]
    rw [hf] at h
    simp at h
    omega
  · intro cond c0 c1 c2 rest hf hnum
    simp [legacyConditionSpec, hf, hnum, castCondition]
  · intro cond c0 c1 c2 rest hf hnum
    simp [legacyConditionSpec, hf, hnum]

/-- Witness for C3 at a concrete filter string: a numeric column is cast
with parentheses stripped, a non-allow-listed column passes through, and
a short condition is dropped. -/
theorem c3_witness :
    legacyWhereClauses "gc_content > (10) AND Hugo_Symbol = TP53 AND bad" =
      ["CAST(\"gc_content\" AS FLOAT) > 10", "Hugo_Symbol = TP53"] := by
  rw [(c3_legacy_filter_compilation "gc_content > (10) AND Hugo_Symbol = TP53 AND bad").1]
  decide

/-- C4 counterexample: the between-range compiler interpolates the raw
column parameter without identifier sanitization — for column "a b" the
emitted predicate contains the unsanitized token, while the sanitizer
would have produced "ab". -/
theorem c4_counterexample :
    whereClausesOf "between" "a b" "1,2" "" "" "11" =
      ["CAST(\"a b\" AS FLOAT) >= 1 AND CAST(\"a b\" AS FLOAT) <= 2"]
  ∧ cleanColumnName "a b" = "ab"
  ∧ ("a b" : String) ≠ "ab" := by
  refine ⟨by decide, by decide, by decide⟩

/-- C4 (amended): when `filterType` is "between" and `column` and `value`
are nonempty, a value with exactly two comma-separated parts compiles to
`CAST("column" AS FLOAT) >= min AND CAST("column" AS FLOAT) <= max` with
the column and the values interpolated as received (the column is NOT
identifier-sanitized); any other value shape drops the range filter; and
in either case the legacy `filters` string is ignored. -/
theorem c4_between_filter (ft col v f sf len : String)
    (hft : ft = "between") (hcol : col ≠ "") (hv : v ≠ "") :
    whereClausesOf ft col v f sf len =
      (if (goSplit v ",").length = 2 then
        [betweenClause col ((goSplit v ",").getD 0 "") ((goSplit v ",").getD 1 "")]
      else []) ++ specialClauses specialSubquery sf len
  ∧ (∀ a b : String, betweenClause col a b =
      "CAST(\"" ++ col ++ "\" AS FLOAT) >= " ++ a ++
      " AND CAST(\"" ++ col ++ "\" AS FLOAT) <= " ++ b) := by
  constructor
  · rw [whereClausesOf, if_pos ⟨hft, hcol, hv⟩, betweenClauses]
  · intro a b
    rfl

/-- Witness for C4: a well-formed between filter on column "AF" wins over
a simultaneously supplied legacy filter string. -/
theorem c4_witness :
    whereClausesOf "between" "AF" "0.1,0.5" "gc_content > 10" "" "11" =
      ["CAST(\"AF\" AS FLOAT) >= 0.1 AND CAST(\"AF\" AS FLOAT) <= 0.5"] := by
  rw [(c4_between_filter "between" "AF" "0.1,0.5" "gc_content > 10" "" "11" rfl
    (by decide) (by decide)).1]
  decide

/-- Per-directive behaviour of the special-filter loop body. -/
theorem specialBody_eq (subq : String → Int → String) (len : String)
    (acc : List String) (part : String) :
    (if (goSplit part ";").getD 0 "" = "at_least_X_distinct_patients" ∧
        (goSplit part ";").length = 2 then
      match goAtoi ((goSplit part ";").getD 1 "") with
      | some n => if n > 0 then acc ++ [subq len n] else acc
      | none => acc
    else acc) = acc ++ (specialDirectiveSpec subq len part).toList := by
  rcases hs : goSplit part ";" with _ | ⟨a, _ | ⟨b, _ | ⟨c, cs⟩⟩⟩ <;>
    simp [specialDirectiveSpec, hs]
  by_cases ha : a = "at_least_X_distinct_patients"
  · subst ha
    simp only [if_pos rfl, true_and, if_pos (And.intro rfl rfl)]
    cases hn : goAtoi b with
    | none => simp [hn]
    | some n =>
      by_cases hpos : n > 0
      · simp [hn, hpos]
      · simp [hn, hpos]
  · simp [ha]

/-- C5 (amended): in the `specialFilters` channel, only the directive
`at_least_X_distinct_patients;<N>` with a positive parsed integer
argument appends a predicate (the subquery built by the handler's
template); unrecognized names, a wrong piece count, an unparseable or a
non-positive argument contribute nothing and raise no error. (The
topology divergence between the subquery and the main query is settled
by the accompanying counterexample.) -/
theorem c5_special_filters (subq : String → Int → String) (sf len : String) :
    specialClauses subq sf len =
      (goSplit sf "|").filterMap (specialDirectiveSpec subq len)
  ∧ (∀ part name arg, goSplit part ";" = [name, arg] →
      name ≠ "at_least_X_distinct_patients" →
      specialDirectiveSpec subq len part = none)
  ∧ (∀ part, (goSplit part ";").length ≠ 2 →
      specialDirectiveSpec subq len part = none)
  ∧ (∀ part arg n, goSplit part ";" = ["at_least_X_distinct_patients", arg] →
      goAtoi arg = some n → 0 < n →
      specialDirectiveSpec subq len part = some (subq len n))
  ∧ (∀ part arg, goSplit part ";" = ["at_least_X_distinct_patients", arg] →
      goAtoi arg = none → specialDirectiveSpec subq len part = none)
  ∧ (∀ part arg n, goSplit part ";" = ["at_least_X_distinct_patients", arg] →
      goAtoi arg = some n → n ≤ 0 →
      specialDirectiveSpec subq len part = none) := by
  refine ⟨?_, ?_, ?_, ?_, ?_, ?_⟩
  · by_cases hsf : sf = ""
    · subst hsf
      have h1 : goSplit "" "|" = [""] := rfl
      have h2 : goSplit "" ";" = [""] := rfl
      rw [h1]
      simp [specialClauses, specialDirectiveSpec, h2]
    · rw [specialClauses, if_pos hsf]
      exact foldl_opt_append (specialDirectiveSpec subq len) _
        (specialBody_eq subq len) _ []
  · intro part name arg hs hname
    simp [specialDirectiveSpec, hs, hname]
  · intro part hlen
    rcases hs : goSplit part ";" with _ | ⟨a, _ | ⟨b, _ | ⟨c, cs⟩⟩⟩ <;>
      simp [specialDirectiveSpec, hs]
    rw [hs] at hlen
    simp at hlen
  · intro part arg n hs hn hpos
    simp [specialDirectiveSpec, hs, hn, hpos]
  · intro part arg hs hn
    simp [specialDirectiveSpec, hs, hn]
  · intro part arg n hs hn hle
    simp [specialDirectiveSpec, hs, hn]
    omega

set_option maxRecDepth 100000 in
/-- C5 counterexample: the claimed join-topology reuse fails in the stats
handler of `server.go` — its special-filter subquery bridges donors via
`exomes_donor_id_mapping`, a table name that never occurs in its main
query, whose bridge is `donor_id_mapping`. -/
theorem c5_counterexample :
    occursIn "exomes_donor_id_mapping" (statsSpecialSubquery "12" 3) = true
  ∧ occursIn "exomes_donor_id_mapping" (statsBaseCTE "12") = false
  ∧ occursIn "donor_id_mapping" (statsBaseCTE "12") = true := by
  refine ⟨by decide, by decide, by decide⟩

set_option maxRecDepth 100000 in
/-- Witness for C5: one recognized directive, one bogus directive and one
non-positive threshold compile to exactly one subquery predicate. -/
theorem c5_witness :
    specialClauses specialSubquery
      "at_least_X_distinct_patients;3|bogus;7|at_least_X_distinct_patients;0"
      "11" = [specialSubquery "11" 3] := by
  rw [(c5_special_filters specialSubquery
    "at_least_X_distinct_patients;3|bogus;7|at_least_X_distinct_patients;0"
    "11").1]
  decide

/-- C6 (amended): paginated neomer requests default `page` to 0 (any
non-numeric or negative value keeps the default), default `limit` to
10000 (any value outside (0, 10000] keeps the default), compute the
OFFSET as `page × limit` in 64-bit two's-complement `int` arithmetic —
equal to the mathematical product exactly when that product fits in
int64, wrapping otherwise — and build the companion COUNT query with
the identical WHERE string as the LIMIT/OFFSET data query. -/
theorem c6_pagination (length pageStr limitStr ft col v f sf : String)
    (h : length ≠ "") :
    (∃ w, nullomersOutcome length pageStr limitStr ft col v f sf =
      .ok (countQuery length w,
           pageQuery length w (limitOf limitStr)
             (int64Wrap (pageOf pageStr * limitOf limitStr))))
  ∧ (∀ i : Int, -2 ^ 63 ≤ i → i < 2 ^ 63 → int64Wrap i = i)
  ∧ (goAtoi pageStr = none → pageOf pageStr = 0)
  ∧ (∀ p, goAtoi pageStr = some p → p < 0 → pageOf pageStr = 0)
  ∧ (∀ p, goAtoi pageStr = some p → 0 ≤ p → pageOf pageStr = p)
  ∧ (goAtoi limitStr = none → limitOf limitStr = 10000)
  ∧ (∀ l, goAtoi limitStr = some l → l ≤ 0 ∨ 10000 < l → limitOf limitStr = 10000)
  ∧ (∀ l, goAtoi limitStr = some l → 0 < l → l ≤ 10000 → limitOf limitStr = l) := by
  refine ⟨?_, ?_, ?_, ?_, ?_, ?_, ?_, ?_⟩
  · refine ⟨finalWhereOf
      (whereClausesOf ft col v f sf length), ?_⟩
    rw [nullomersOutcome, if_neg h]
  · intro i h1 h2
    rw [int64Wrap]
    omega
  · intro hp
    simp [pageOf, hp]
  · intro p hp hneg
    simp [pageOf, hp, show ¬ p ≥ 0 by omega]
  · intro p hp hpos
    simp [pageOf, hp, show p ≥ 0 from hpos]
  · intro hl
    simp [limitOf, hl]
  · intro l hl hbad
    simp [limitOf, hl, show ¬ (l > 0 ∧ l ≤ 10000) by omega]
  · intro l hl h1 h2
    simp [limitOf, hl, show l > 0 ∧ l ≤ 10000 from ⟨h1, h2⟩]

/-- Witness for C6 at page "2", limit "50" for a length-12 request (the
product 100 is far inside int64, so the wrapped offset is 100). -/
theorem c6_witness :
    pageOf "2" = 2 ∧ limitOf "50" = 50 ∧
    int64Wrap (pageOf "2" * limitOf "50") = pageOf "2" * limitOf "50" ∧
    (∃ w, nullomersOutcome "12" "2" "50" "" "" "" "" "" =
      .ok (countQuery "12" w,
        pageQuery "12" w (limitOf "50")
          (int64Wrap (pageOf "2" * limitOf "50")))) := by
  have h := c6_pagination "12" "2" "50" "" "" "" "" "" (by decide)
  exact ⟨h.2.2.2.2.1 2 (by decide) (by decide),
    h.2.2.2.2.2.2.2 50 (by decide) (by decide) (by decide),
    h.2.1 (pageOf "2" * limitOf "50") (by decide) (by decide), h.1⟩

/-- C6 counterexample: Go's `offset := page * limit` is wrapping 64-bit
multiplication — at page 2^60 and limit 16 the program emits OFFSET 0,
not the mathematical product 2^64, so the data query does not use
`OFFSET = page × limit` at these representable inputs. -/
theorem c6_counterexample :
    pageOf "1152921504606846976" = 1152921504606846976
  ∧ limitOf "16" = 16
  ∧ int64Wrap (pageOf "1152921504606846976" * limitOf "16") = 0
  ∧ pageOf "1152921504606846976" * limitOf "16" ≠ 0
  ∧ nullomersOutcome "12" "1152921504606846976" "16" "" "" "" "" "" =
      .ok (countQuery "12" "", pageQuery "12" "" 16 0) := by
  refine ⟨by decide, by decide, by decide, by decide, rfl⟩

set_option maxRecDepth 400000 in
/-- C7 counterexample: a request with length=25 is not rejected — the
paginated handler proceeds and both of its SQL queries name the
nonexistent table `neomers_25`; and the Jaccard precheck accepts
K="-3", which is not a positive integer, proceeding with table
`neomers_-3`. -/
theorem c7_counterexample :
    nullomersOutcome "25" "" "" "" "" "" "" "" =
      .ok (countQuery "25" "", pageQuery "25" "" 10000 0)
  ∧ occursIn "neomers_25" (pageQuery "25" "" 10000 0) = true
  ∧ occursIn "neomers_25" (countQuery "25" "") = true
  ∧ jaccardPrecheck "-3" = .ok "neomers_-3" := by
  refine ⟨rfl, by decide, by decide, rfl⟩

/-- C7 (amended): the paginated neomer handler rejects only a missing
`length` parameter — any non-empty length (in range or not) proceeds to
query construction and execution; the Jaccard endpoints reject `K`
exactly when it is empty, fails integer parsing, or is the literal
string "0" (so non-positive integers other than "0" pass). -/
theorem c7_length_validation (length pageStr limitStr ft col v f sf K : String) :
    (length = "" → nullomersOutcome length pageStr limitStr ft col v f sf =
      .error "Missing required parameter 'length'")
  ∧ (length ≠ "" →
      (nullomersOutcome length pageStr limitStr ft col v f sf).isOk = true)
  ∧ ((jaccardPrecheck K).isOk = true ↔ ((goAtoi K).isSome = true ∧ K ≠ "0")) := by
  refine ⟨?_, ?_, ?_⟩
  · intro he
    rw [nullomersOutcome, if_pos he]
  · intro hne
    rw [nullomersOutcome, if_neg hne]
    rfl
  · by_cases hK : K = ""
    · subst hK
      have hnone : goAtoi "" = none := rfl
      simp [jaccardPrecheck, hnone, Except.isOk, Except.toBool]
    · rw [jaccardPrecheck, if_neg hK]
      by_cases hd : (goAtoi K).isNone = true ∨ K = "0"
      · rw [if_pos hd]
        simp only [Except.isOk, Except.toBool]
        constructor
        · intro hfalse
          exact absurd hfalse (by simp)
        · rintro ⟨hsome, hzero⟩
          rcases hd with hnone | hzero2
          · rw [Option.isNone_iff_eq_none] at hnone
            rw [hnone] at hsome
            simp at hsome
          · exact absurd hzero2 hzero
      · rw [if_neg hd]
        push_neg at hd
        simp only [Except.isOk, Except.toBool, true_iff]
        refine ⟨?_, hd.2⟩
        rcases ho : goAtoi K with _ | n
        · rw [← Option.isNone_iff_eq_none] at ho
          exact absurd ho hd.1
        · simp

/-- Witness for C7: length 25 proceeds and K="-3" passes the precheck. -/
theorem c7_witness :
    (nullomersOutcome "25" "" "" "" "" "" "" "").isOk = true ∧
    (jaccardPrecheck "-3").isOk = true := by
  have h := c7_length_validation "25" "" "" "" "" "" "" "" "-3"
  exact ⟨h.2.1 (by decide), h.2.2.mpr ⟨by decide, by decide⟩⟩

/-- C9: every no-row outcome inside the patient-details lookup — no donor
mapping, no project code, or no joined detail row — yields a successful
response with a null patient, never a 404 or 500. -/
theorem c9_patient_not_found (db : PatientDb) (donorId : String)
    (hid : donorId ≠ "") :
    (db.mapActualToInternal donorId = none →
      getPatientDetails db donorId = .okPatient none)
  ∧ (∀ iid, db.mapActualToInternal donorId = some iid → db.projectOf iid = none →
      getPatientDetails db donorId = .okPatient none)
  ∧ (∀ iid pc cols, db.mapActualToInternal donorId = some iid →
      db.projectOf iid = some pc → db.donorDataColumns = some cols →
      db.detailsRow pc donorId = none →
      getPatientDetails db donorId = .okPatient none) := by
  refine ⟨?_, ?_, ?_⟩ <;> intros <;> simp [getPatientDetails, hid, *]

/-- Witness for C9: a donor id with no mapping row gets a 200 with a null
patient. -/
theorem c9_witness :
    getPatientDetails
      ⟨fun _ => none, fun _ => none, some [], fun _ _ => none⟩ "DO1000" =
      .okPatient none := by
  have h := c9_patient_not_found
    ⟨fun _ => none, fun _ => none, some [], fun _ _ => none⟩ "DO1000" (by decide)
  exact h.1 rfl

/-- C10: in every materialized tabular response the headers are exactly the
executor's column names in order, every byte-array cell is replaced by
the equivalent string, null stays null, every other cell passes through
unchanged, and no raw byte-array cell survives. -/
theorem c10_materializer (cols : List String) (rows : List (List DBValue)) :
    (materializeResponse cols rows).headers = cols
  ∧ (materializeResponse cols rows).data =
      rows.map (fun row => row.map materializeCell)
  ∧ (∀ row ∈ (materializeResponse cols rows).data, ∀ v ∈ row, v.isBytes = false)
  ∧ (∀ bs, materializeCell (.bytes bs) = .strV bs)
  ∧ materializeCell .null = .null
  ∧ (∀ v, v.isBytes = false → materializeCell v = v) := by
  refine ⟨rfl, rfl, ?_, fun _ => rfl, rfl, ?_⟩
  · intro row hrow v hv
    simp only [materializeResponse, List.mem_map] at hrow
    obtain ⟨row₀, _, rfl⟩ := hrow
    simp only [List.mem_map] at hv
    obtain ⟨v₀, _, rfl⟩ := hv
    cases v₀ <;> rfl
  · intro v hv
    cases v <;> first
      | rfl
      | simp [DBValue.isBytes] at hv

/-- Witness for C10: a row with a byte-array cell, a null and an integer. -/
theorem c10_witness :
    (materializeResponse ["h1"]
      [[DBValue.bytes [71], DBValue.null, DBValue.intV 4]]).headers = ["h1"]
  ∧ (materializeResponse ["h1"]
      [[DBValue.bytes [71], DBValue.null, DBValue.intV 4]]).data =
      [[DBValue.strV [71], DBValue.null, DBValue.intV 4]] := by
  have h := c10_materializer ["h1"]
    [[DBValue.bytes [71], DBValue.null, DBValue.intV 4]]
  exact ⟨h.1, by rw [h.2.1]; rfl⟩

/-! ## gc_content (C2) -/

/-- Rounding half away from zero is an odd function. -/
theorem sqlRound_neg (d : Nat) (q : ℚ) : sqlRound d (-q) = -sqlRound d q := by
  rcases lt_trichotomy q 0 with h | h | h
  · rw [sqlRound, sqlRound, if_pos (by linarith), if_neg (by linarith)]
    simp
  · subst h
    simp [sqlRound]
    norm_num
  · rcases eq_or_lt_of_le (le_of_lt h) with h0 | _
    · rw [← h0]; simp [sqlRound]; norm_num
    · rw [sqlRound, sqlRound, if_neg (by linarith), if_pos (by linarith)]
      simp

/-- Rounding half away from zero preserves nonnegativity. -/
theorem sqlRound_nonneg (d : Nat) (q : ℚ) (h : 0 ≤ q) : 0 ≤ sqlRound d q := by
  rw [sqlRound, if_pos h]
  apply div_nonneg
  · have : (0 : ℤ) ≤ ⌊q * 10 ^ d + 1 / 2⌋ := by
      rw [Int.le_floor]
      push_cast
      positivity
    exact_mod_cast this
  · positivity

/-- Deleting a character from a list shortens it by that character's
count. -/
theorem length_filter_ne_add_count (l : List Char) (c : Char) :
    (l.filter (fun x => x ≠ c)).length + l.count c = l.length := by
  induction l with
  | nil => rfl
  | cons a t ih =>
    rw [List.filter_cons, List.count_cons, List.length_cons]
    by_cases hac : a = c
    · rw [if_neg (by simp [hac]), if_pos (by simp [hac])]
      omega
    · rw [if_pos (by simp [hac]), if_neg (by simp [hac]), List.length_cons]
      omega

/-- G-count plus C-count never exceeds the sequence length. -/
theorem count_G_add_count_C_le (l : List Char) :
    l.count 'G' + l.count 'C' ≤ l.length := by
  induction l with
  | nil => simp
  | cons a t ih =>
    rw [List.count_cons, List.count_cons, List.length_cons]
    by_cases hg : a = 'G'
    · rw [if_pos (by simp [hg]), if_neg (by rw [hg]; decide)]
      omega
    · by_cases hc : a = 'C'
      · rw [if_neg (by simp [hg]), if_pos (by simp [hc])]
        omega
      · rw [if_neg (by simp [hg]), if_neg (by simp [hc])]
        omega

/-- C2 (amended): the derived gc_content column equals
`round(100 × (L − count_G − count_C) / L, 2)` — the AT percentage of the
sequence, computed case-insensitively — and is therefore always ≥ 0.
(The SQL expression's inner numerator is `count_G + count_C − L`, not
`count_G + count_C`, so the trailing `* -1` makes the result
nonnegative.) -/
theorem c2_gc_content (s : String) (h : 0 < s.length) :
    gc_content s =
      sqlRound 2 (100 * (((s.length : ℚ) - ((sqlUpper s).data.count 'G' : ℚ)
        - ((sqlUpper s).data.count 'C' : ℚ))) / (s.length : ℚ))
  ∧ 0 ≤ gc_content s := by
  have hlen : (sqlUpper s).data.length = s.length := by
    show (s.data.map Char.toUpper).length = s.length
    rw [List.length_map]
    rfl
  have hG := length_filter_ne_add_count (sqlUpper s).data 'G'
  have hC := length_filter_ne_add_count (sqlUpper s).data 'C'
  have h1 : ((sqlDeleteChar 'G' (sqlUpper s)).length : ℚ) =
      (s.length : ℚ) - ((sqlUpper s).data.count 'G' : ℚ) := by
    show ((((sqlUpper s).data.filter (fun x => x ≠ 'G')).length : ℚ)) = _
    have hn : ((sqlUpper s).data.filter (fun x => x ≠ 'G')).length +
        (sqlUpper s).data.count 'G' = s.length := by rw [hG, hlen]
    have hq : ((((sqlUpper s).data.filter (fun x => x ≠ 'G')).length : ℚ)) +
        ((sqlUpper s).data.count 'G' : ℚ) = (s.length : ℚ) := by
      exact_mod_cast hn
    linarith
  have h2 : ((sqlDeleteChar 'C' (sqlUpper s)).length : ℚ) =
      (s.length : ℚ) - ((sqlUpper s).data.count 'C' : ℚ) := by
    show ((((sqlUpper s).data.filter (fun x => x ≠ 'C')).length : ℚ)) = _
    have hn : ((sqlUpper s).data.filter (fun x => x ≠ 'C')).length +
        (sqlUpper s).data.count 'C' = s.length := by rw [hC, hlen]
    have hq : ((((sqlUpper s).data.filter (fun x => x ≠ 'C')).length : ℚ)) +
        ((sqlUpper s).data.count 'C' : ℚ) = (s.length : ℚ) := by
      exact_mod_cast hn
    linarith
  have hmain : gc_content s =
      sqlRound 2 (100 * (((s.length : ℚ) - ((sqlUpper s).data.count 'G' : ℚ)
        - ((sqlUpper s).data.count 'C' : ℚ))) / (s.length : ℚ)) := by
    rw [gc_content, h1, h2]
    have hflip : 100 * ((s.length : ℚ) - ((s.length : ℚ) - ((sqlUpper s).data.count 'G' : ℚ))
        - ((s.length : ℚ) - ((sqlUpper s).data.count 'C' : ℚ))) / (s.length : ℚ) =
        -(100 * (((s.length : ℚ) - ((sqlUpper s).data.count 'G' : ℚ)
          - ((sqlUpper s).data.count 'C' : ℚ))) / (s.length : ℚ)) := by
      ring
    rw [hflip, sqlRound_neg]
    ring
  refine ⟨hmain, ?_⟩
  rw [hmain]
  apply sqlRound_nonneg
  have hle : ((sqlUpper s).data.count 'G' : ℚ) + ((sqlUpper s).data.count 'C' : ℚ)
      ≤ (s.length : ℚ) := by
    have := count_G_add_count_C_le (sqlUpper s).data
    rw [hlen] at this
    exact_mod_cast this
  have hL : (0 : ℚ) < (s.length : ℚ) := by exact_mod_cast h
  apply div_nonneg _ (le_of_lt hL)
  nlinarith

/-- C2 counterexample: the claim's formula `-round(100·(G+C)/L, 2)` gives
-0.0 = 0 on eleven A's, but the code computes +100 there (it reports the
AT percentage, not a negated GC percentage). -/
theorem c2_counterexample :
    gc_content "AAAAAAAAAAA" = 100
  ∧ specStatedGcContent "AAAAAAAAAAA" = 0
  ∧ gc_content "AAAAAAAAAAA" ≠ specStatedGcContent "AAAAAAAAAAA" := by
  have n0 : ("AAAAAAAAAAA" : String).length = 11 := by decide
  have n1 : (sqlDeleteChar 'G' (sqlUpper "AAAAAAAAAAA")).length = 11 := by decide
  have n2 : (sqlDeleteChar 'C' (sqlUpper "AAAAAAAAAAA")).length = 11 := by decide
  have cg : (sqlUpper "AAAAAAAAAAA").data.count 'G' = 0 := by decide
  have cc : (sqlUpper "AAAAAAAAAAA").data.count 'C' = 0 := by decide
  have g1 : gc_content "AAAAAAAAAAA" = 100 := by
    rw [gc_content, n0, n1, n2]
    rw [show (100 : ℚ) * ((11 : ℕ) - (11 : ℕ) - (11 : ℕ)) / (11 : ℕ) = -100 by push_cast; ring]
    rw [show (-100 : ℚ) = -(100 : ℚ) by ring, sqlRound_neg]
    rw [show sqlRound 2 (100 : ℚ) = 100 by rw [sqlRound, if_pos (by norm_num)]; norm_num]
    ring
  have g2 : specStatedGcContent "AAAAAAAAAAA" = 0 := by
    rw [specStatedGcContent, n0, cg, cc]
    rw [show (100 : ℚ) * ((0 : ℕ) + (0 : ℕ)) / (11 : ℕ) = 0 by push_cast; ring]
    rw [show sqlRound 2 (0 : ℚ) = 0 by rw [sqlRound, if_pos le_rfl]; norm_num]
    ring
  exact ⟨g1, g2, by rw [g1, g2]; norm_num⟩

/-- Witness for C2 at the 11-mer of 5 G's and 6 C's (its gc_content is 0,
the AT percentage). -/
theorem c2_witness :
    gc_content "GGGGGCCCCCC" =
      sqlRound 2 (100 * ((("GGGGGCCCCCC" : String).length : ℚ)
        - ((sqlUpper "GGGGGCCCCCC").data.count 'G' : ℚ)
        - ((sqlUpper "GGGGGCCCCCC").data.count 'C' : ℚ))
        / (("GGGGGCCCCCC" : String).length : ℚ))
  ∧ 0 ≤ gc_content "GGGGGCCCCCC" :=
  c2_gc_content "GGGGGCCCCCC" (by decide)

/-! ## Lexicographic order lemmas (for the `ORDER BY` denotation) -/

/-- Strings with equal character data are equal. -/
theorem string_data_inj {a b : String} (h : a.data = b.data) : a = b := by
  cases a
  cases b
  exact congrArg String.mk h

/-- `lexLe` is reflexive. -/
theorem lexLe_refl (l : List Char) : lexLe l l = true := by
  induction l with
  | nil => rfl
  | cons a t ih => simp [lexLe, lt_irrefl, ih]

/-- `lexLe` is total. -/
theorem lexLe_total (x y : List Char) : lexLe x y = true ∨ lexLe y x = true := by
  induction x generalizing y with
  | nil => left; rfl
  | cons a as ih =>
    cases y with
    | nil => right; rfl
    | cons b bs =>
      rcases lt_trichotomy a b with h | h | h
      · left; simp [lexLe, h]
      · subst h
        rcases ih bs with h2 | h2
        · left; simp [lexLe, lt_irrefl, h2]
        · right; simp [lexLe, lt_irrefl, h2]
      · right; simp [lexLe, h]

/-- `lexLe` is transitive. -/
theorem lexLe_trans {x y z : List Char} (h1 : lexLe x y = true)
    (h2 : lexLe y z = true) : lexLe x z = true := by
  induction x generalizing y z with
  | nil => rfl
  | cons a as ih =>
    cases y with
    | nil => simp [lexLe] at h1
    | cons b bs =>
      cases z with
      | nil => simp [lexLe] at h2
      | cons c cs =>
        rcases lt_trichotomy a b with hab | hab | hab
        · rcases lt_trichotomy b c with hbc | hbc | hbc
          · simp [lexLe, lt_trans hab hbc]
          · subst hbc
            simp [lexLe, hab]
          · simp [lexLe, lt_asymm hbc, hbc] at h2
        · subst hab
          rcases lt_trichotomy a c with hac | hac | hac
          · simp [lexLe, hac]
          · subst hac
            simp [lexLe, lt_irrefl] at h1 h2 ⊢
            exact ih h1 h2
          · simp [lexLe, lt_asymm hac, hac] at h2
        · simp [lexLe, lt_asymm hab, hab] at h1

/-- `lexLe` is antisymmetric. -/
theorem lexLe_antisymm {x y : List Char} (h1 : lexLe x y = true)
    (h2 : lexLe y x = true) : x = y := by
  induction x generalizing y with
  | nil =>
    cases y with
    | nil => rfl
    | cons b bs => simp [lexLe] at h2
  | cons a as ih =>
    cases y with
    | nil => simp [lexLe] at h1
    | cons b bs =>
      rcases lt_trichotomy a b with hab | hab | hab
      · simp [lexLe, lt_asymm hab, hab] at h2
      · subst hab
        simp [lexLe, lt_irrefl] at h1 h2
        rw [ih h1 h2]
      · simp [lexLe, lt_asymm hab, hab] at h1

/-- The pair order is total. -/
theorem pairLe_total (p q : String × String) :
    pairLe p q = true ∨ pairLe q p = true := by
  by_cases h : p.1 = q.1
  · rw [pairLe, if_pos h, pairLe, if_pos h.symm]
    exact lexLe_total _ _
  · rw [pairLe, if_neg h, pairLe, if_neg (fun e => h e.symm)]
    exact lexLe_total _ _

/-- The pair order is transitive. -/
theorem pairLe_trans {p q r : String × String} (h1 : pairLe p q = true)
    (h2 : pairLe q r = true) : pairLe p r = true := by
  by_cases hpq : p.1 = q.1
  · by_cases hqr : q.1 = r.1
    · rw [pairLe, if_pos hpq] at h1
      rw [pairLe, if_pos hqr] at h2
      rw [pairLe, if_pos (hpq.trans hqr)]
      exact lexLe_trans h1 h2
    · rw [pairLe, if_neg hqr] at h2
      rw [pairLe, if_neg (fun e => hqr (hpq.symm.trans e)), hpq]
      exact h2
  · by_cases hqr : q.1 = r.1
    · rw [pairLe, if_neg hpq] at h1
      rw [pairLe, if_neg (fun e => hpq (e.trans hqr.symm)), ← hqr]
      exact h1
    · rw [pairLe, if_neg hpq] at h1
      rw [pairLe, if_neg hqr] at h2
      by_cases hpr : p.1 = r.1
      · rw [hpr] at h1
        have := lexLe_antisymm h2 h1
        exact absurd (string_data_inj this) hqr
      · rw [pairLe, if_neg hpr]
        exact lexLe_trans h1 h2

/-! ## Structure of the Jaccard pipeline -/

/-- The distinct labels of the final query are the distinct labels of the
joined dataset. -/
theorem all_labels_eq (jd : List (String × String)) :
    all_labels jd = (jd.map Prod.snd).dedup := by
  rw [all_labels, label_counts, List.map_map]
  rw [show ((Prod.fst ∘ fun A =>
    (A, ((jd.filter (fun r => r.2 = A)).map Prod.fst).dedup.length))) = id from rfl]
  rw [List.map_id]
  exact (List.nodup_dedup _).dedup

/-- Label membership in `all_labels`. -/
theorem mem_all_labels (jd : List (String × String)) (a : String) :
    a ∈ all_labels jd ↔ a ∈ jd.map Prod.snd := by
  rw [all_labels_eq, List.mem_dedup]

/-- The distinct labels are without duplicates. -/
theorem nodup_all_labels (jd : List (String × String)) :
    (all_labels jd).Nodup := by
  rw [all_labels_eq]
  exact List.nodup_dedup _

/-- Finding a key in the graph of a function over strings. -/
theorem find?_counts_map (l : List String) (f : String → Nat) (a : String) :
    ((l.map fun A => (A, f A)).find? fun e => e.1 = a) =
      (l.find? fun A => A = a).map fun A => (A, f A) := by
  induction l with
  | nil => rfl
  | cons b t ih =>
    by_cases h : b = a
    · rw [List.map_cons, List.find?_cons_of_pos _ (by simp [h]),
        List.find?_cons_of_pos _ (by simp [h])]
      rfl
    · rw [List.map_cons, List.find?_cons_of_neg _ (by simp [h]),
        List.find?_cons_of_neg _ (by simp [h])]
      exact ih

/-- `find?` for an equality predicate returns the sought element when
present. -/
theorem find?_eq_self (l : List String) (a : String) (ha : a ∈ l) :
    (l.find? fun A => A = a) = some a := by
  induction l with
  | nil => cases ha
  | cons b t ih =>
    by_cases h : b = a
    · rw [List.find?_cons_of_pos _ (by simp [h]), h]
    · rw [List.find?_cons_of_neg _ (by simp [h])]
      rcases List.mem_cons.mp ha with h' | h'
      · exact absurd h'.symm h
      · exact ih h'

/-- The label-count lookup of the final SELECT agrees with the per-label
distinct-sequence count of the dataset. -/
theorem countOf_eq (jd : List (String × String)) (a : String)
    (ha : a ∈ all_labels jd) : countOf jd a = distinctSeqCount jd a := by
  have hmem : a ∈ (jd.map Prod.snd).dedup := by
    rw [← all_labels_eq]
    exact ha
  rw [countOf, label_counts, find?_counts_map, find?_eq_self _ _ hmem]
  show ((jd.filter (fun r => r.2 = a)).map Prod.fst).dedup.length =
    distinctSeqCount jd a
  rw [distinctSeqCount, List.card_toFinset]

/-- Membership in the self join. -/
theorem mem_self_join (jd : List (String × String))
    (r1 r2 : String × String) :
    (r1, r2) ∈ self_join jd ↔ r1 ∈ jd ∧ r2 ∈ jd ∧ r1.1 = r2.1 := by
  rw [self_join, List.mem_filter]
  simp [List.mem_product, and_assoc]

/-- The sequences of one intersection group are exactly the sequences
carrying both labels. -/
theorem mem_group_seqs (jd : List (String × String)) (a b s : String) :
    (s ∈ ((self_join jd).filter fun p => p.1.2 = a ∧ p.2.2 = b).map
      fun p => p.1.1) ↔ (s, a) ∈ jd ∧ (s, b) ∈ jd := by
  simp only [List.mem_map, List.mem_filter]
  constructor
  · rintro ⟨p, ⟨hsj, hlab⟩, rfl⟩
    simp only [decide_eq_true_eq] at hlab
    obtain ⟨h1, h2, heq⟩ := (mem_self_join jd p.1 p.2).mp hsj
    constructor
    · rw [← hlab.1]
      exact h1
    · rw [← hlab.2]
      rw [heq]
      exact h2
  · rintro ⟨ha, hb⟩
    refine ⟨((s, a), (s, b)), ⟨(mem_self_join jd _ _).mpr ⟨ha, hb, rfl⟩, ?_⟩, rfl⟩
    simp

/-- The sequences carrying one label, as produced by the filter-map of
`label_counts`. -/
theorem mem_label_seqs (jd : List (String × String)) (a s : String) :
    (s ∈ (jd.filter fun r => r.2 = a).map Prod.fst) ↔ (s, a) ∈ jd := by
  simp only [List.mem_map, List.mem_filter]
  constructor
  · rintro ⟨r, ⟨hr, hl⟩, rfl⟩
    simp only [decide_eq_true_eq] at hl
    rw [← hl]
    exact hr
  · intro h
    exact ⟨(s, a), ⟨h, by simp⟩, rfl⟩

/-- Finding a pair key in the graph of a function over label pairs. -/
theorem find?_inter_map (l : List (String × String))
    (f : String × String → Nat) (a b : String) :
    ((l.map fun ab => (ab, f ab)).find? fun e => e.1.1 = a ∧ e.1.2 = b) =
      (l.find? fun ab => ab.1 = a ∧ ab.2 = b).map fun ab => (ab, f ab) := by
  induction l with
  | nil => rfl
  | cons x t ih =>
    by_cases h : x.1 = a ∧ x.2 = b
    · rw [List.map_cons, List.find?_cons_of_pos _ (by simp [h.1, h.2]),
        List.find?_cons_of_pos _ (by simp [h.1, h.2])]
      rfl
    · rw [List.map_cons,
        List.find?_cons_of_neg _ (by simp only [decide_eq_true_eq]; exact h),
        List.find?_cons_of_neg _ (by simp only [decide_eq_true_eq]; exact h)]
      exact ih

/-- `find?` for a pair-equality predicate returns the sought pair when
present. -/
theorem find?_pair_eq_self (l : List (String × String)) (a b : String)
    (ha : (a, b) ∈ l) :
    (l.find? fun ab => ab.1 = a ∧ ab.2 = b) = some (a, b) := by
  induction l with
  | nil => cases ha
  | cons x t ih =>
    by_cases h : x.1 = a ∧ x.2 = b
    · rw [List.find?_cons_of_pos _ (by simp [h.1, h.2])]
      rw [show x = (a, b) by rw [← h.1, ← h.2]]
    · rw [List.find?_cons_of_neg _ (by simp only [decide_eq_true_eq]; exact h)]
      rcases List.mem_cons.mp ha with h' | h'
      · subst h'
        exact absurd ⟨rfl, rfl⟩ h
      · exact ih h'

/-- One intersection group's distinct sequences form exactly the
intersection of the two labels' distinct-sequence sets. -/
theorem groupFinset_eq (jd : List (String × String)) (a b : String) :
    (((self_join jd).filter fun p => p.1.2 = a ∧ p.2.2 = b).map
      fun p => p.1.1).toFinset =
      ((jd.filter fun r => r.2 = a).map Prod.fst).toFinset ∩
        ((jd.filter fun r => r.2 = b).map Prod.fst).toFinset := by
  ext s
  simp only [List.mem_toFinset, Finset.mem_inter]
  rw [mem_group_seqs, mem_label_seqs, mem_label_seqs]

/-- A pair of labels is a key of the intersections CTE exactly when some
sequence carries both labels. -/
theorem pair_mem_keys (jd : List (String × String)) (a b : String) :
    ((a, b) ∈ ((self_join jd).map fun p => (p.1.2, p.2.2)).dedup) ↔
      ∃ s, (s, a) ∈ jd ∧ (s, b) ∈ jd := by
  rw [List.mem_dedup]
  simp only [List.mem_map]
  constructor
  · rintro ⟨p, hp, hkey⟩
    obtain ⟨h1, h2, heq⟩ := (mem_self_join jd p.1 p.2).mp hp
    refine ⟨p.1.1, ?_, ?_⟩
    · have ha : p.1.2 = a := congrArg Prod.fst hkey
      rw [← ha]
      exact h1
    · have hb : p.2.2 = b := congrArg Prod.snd hkey
      rw [← hb, heq]
      exact h2
  · rintro ⟨s, ha, hb⟩
    exact ⟨((s, a), (s, b)), (mem_self_join jd _ _).mpr ⟨ha, hb, rfl⟩, rfl⟩

/-- The coalesced intersection lookup of the final SELECT equals the
number of distinct sequences shared by the two labels — also when the
pair has no intersection group (the COALESCE-to-0 case). -/
theorem intersectionOf_eq (jd : List (String × String)) (a b : String) :
    intersectionOf jd a b = sharedSeqCount jd a b := by
  by_cases hk : (a, b) ∈ ((self_join jd).map fun p => (p.1.2, p.2.2)).dedup
  · rw [intersectionOf, intersections, find?_inter_map,
      find?_pair_eq_self _ _ _ hk]
    show (((self_join jd).filter fun p => p.1.2 = a ∧ p.2.2 = b).map
      fun p => p.1.1).dedup.length = _
    rw [← List.card_toFinset, groupFinset_eq]
    rfl
  · have hfind : ((intersections jd).find? fun e => e.1.1 = a ∧ e.1.2 = b)
        = none := by
      rw [List.find?_eq_none]
      intro x hx
      rw [intersections] at hx
      simp only [List.mem_map] at hx
      obtain ⟨ab, hab, rfl⟩ := hx
      simp only [decide_eq_true_eq, not_and]
      intro h1 h2
      exact hk (by rw [show (a, b) = ab by rw [← h1, ← h2]]; exact hab)
    rw [intersectionOf, hfind]
    have hempty : sharedSeqCount jd a b = 0 := by
      rw [sharedSeqCount, Finset.card_eq_zero, Finset.eq_empty_iff_forall_not_mem]
      intro s hs
      rw [Finset.mem_inter, List.mem_toFinset, List.mem_toFinset,
        mem_label_seqs, mem_label_seqs] at hs
      exact hk ((pair_mem_keys jd a b).mpr ⟨s, hs.1, hs.2⟩)
    rw [hempty]

/-- The keys of the unsorted result rows are exactly the label pairs. -/
theorem map_key_unsorted (jd : List (String × String)) :
    (jaccardRowsUnsorted jd).map (fun r => (r.label_A, r.label_B)) =
      label_pairs jd := by
  rw [jaccardRowsUnsorted, List.map_map]
  exact List.map_id _

/-- Membership in the sorted result set. -/
theorem mem_jaccardQuery (jd : List (String × String)) (r : JaccardRow) :
    r ∈ jaccardQuery jd ↔ ∃ p ∈ label_pairs jd, r = jaccardRowOf jd p := by
  rw [jaccardQuery, (List.perm_insertionSort rowLe _).mem_iff,
    jaccardRowsUnsorted]
  simp only [List.mem_map]
  constructor
  · rintro ⟨p, hp, h⟩
    exact ⟨p, hp, h.symm⟩
  · rintro ⟨p, hp, h⟩
    exact ⟨p, hp, h.symm⟩

/-- The sorted result's keys are a permutation of the label pairs. -/
theorem map_key_query_perm (jd : List (String × String)) :
    (((jaccardQuery jd).map fun r => (r.label_A, r.label_B)).Perm
      (label_pairs jd)) := by
  rw [← map_key_unsorted jd]
  exact (List.perm_insertionSort rowLe _).map _

/-- A key occurs in the result set exactly when both its labels occur in
the dataset. -/
theorem mem_key_jaccardQuery (jd : List (String × String)) (a b : String) :
    ((a, b) ∈ (jaccardQuery jd).map fun r => (r.label_A, r.label_B)) ↔
      (a ∈ jd.map Prod.snd ∧ b ∈ jd.map Prod.snd) := by
  rw [(map_key_query_perm jd).mem_iff, label_pairs, List.mem_product,
    mem_all_labels, mem_all_labels]

/-- Field equations of every row of the result set: the intersection
count is the number of distinct shared sequences, the union count is
`count A + count B − intersection`, and the Jaccard index follows the
three-way CASE. -/
theorem jaccardQuery_row_spec (jd : List (String × String)) :
    ∀ r ∈ jaccardQuery jd,
      r.intersection_count = sharedSeqCount jd r.label_A r.label_B
    ∧ r.union_count = (distinctSeqCount jd r.label_A : Int) +
        (distinctSeqCount jd r.label_B : Int) - (r.intersection_count : Int)
    ∧ r.jaccard_index =
        (if r.label_A = r.label_B then 1
         else if r.union_count = 0 then 0
         else sqlRound 4
           ((r.intersection_count : ℚ) / (r.union_count : ℚ))) := by
  intro r hr
  obtain ⟨p, hp, rfl⟩ := (mem_jaccardQuery jd r).mp hr
  obtain ⟨hpa, hpb⟩ := List.mem_product.mp hp
  refine ⟨?_, ?_, rfl⟩
  · show intersectionOf jd p.1 p.2 = sharedSeqCount jd p.1 p.2
    exact intersectionOf_eq jd p.1 p.2
  · show (countOf jd p.1 : Int) + (countOf jd p.2 : Int) -
      (intersectionOf jd p.1 p.2 : Int) = _
    rw [countOf_eq jd p.1 hpa, countOf_eq jd p.2 hpb]
    rfl

/-- C1: for every dataset join, the Jaccard endpoints return exactly one
row per ordered pair of labels drawn from the dataset (self-pairs
included), sorted lexicographically by the pair, where the intersection
count is the number of distinct shared sequences (0 when the pair
co-occurs in no sequence), the union count is
`count(A) + count(B) − intersection`, and the Jaccard index is 1 on the
diagonal, 0 when the union is 0, and `round(intersection/union, 4)`
otherwise. -/
theorem c1_jaccard_result_set (ns : List NeomerRow) (cs : List CancerTypeRow)
    (lab : CancerTypeRow → String) :
    (((jaccardQuery (joined_data ns cs lab)).map
        fun r => (r.label_A, r.label_B)).Nodup)
  ∧ (∀ a b : String,
      ((a, b) ∈ (jaccardQuery (joined_data ns cs lab)).map
        fun r => (r.label_A, r.label_B)) ↔
      (a ∈ (joined_data ns cs lab).map Prod.snd ∧
       b ∈ (joined_data ns cs lab).map Prod.snd))
  ∧ List.Sorted (fun p q => pairLe p q = true)
      ((jaccardQuery (joined_data ns cs lab)).map
        fun r => (r.label_A, r.label_B))
  ∧ (∀ r ∈ jaccardQuery (joined_data ns cs lab),
      r.intersection_count =
        sharedSeqCount (joined_data ns cs lab) r.label_A r.label_B
    ∧ r.union_count =
        (distinctSeqCount (joined_data ns cs lab) r.label_A : Int) +
        (distinctSeqCount (joined_data ns cs lab) r.label_B : Int) -
        (r.intersection_count : Int)
    ∧ r.jaccard_index =
        (if r.label_A = r.label_B then 1
         else if r.union_count = 0 then 0
         else sqlRound 4
           ((r.intersection_count : ℚ) / (r.union_count : ℚ)))) := by
  refine ⟨?_, ?_, ?_, jaccardQuery_row_spec _⟩
  · exact (map_key_query_perm _).nodup_iff.mpr
      (List.Nodup.product (nodup_all_labels _) (nodup_all_labels _))
  · intro a b
    exact mem_key_jaccardQuery _ a b
  · haveI : IsTotal JaccardRow rowLe := ⟨fun r s => pairLe_total _ _⟩
    haveI : IsTrans JaccardRow rowLe := ⟨fun x y z h1 h2 => pairLe_trans h1 h2⟩
    exact List.pairwise_map.mpr (List.sorted_insertionSort rowLe _)

/-- C8: Jaccard symmetry — for distinct labels A ≠ B both orientations are
materialized (or neither), with equal intersection counts, equal union
counts and equal Jaccard indices. -/
theorem c8_jaccard_symmetry (ns : List NeomerRow) (cs : List CancerTypeRow)
    (lab : CancerTypeRow → String) (a b : String) (hab : a ≠ b) :
    (((a, b) ∈ (jaccardQuery (joined_data ns cs lab)).map
        fun r => (r.label_A, r.label_B)) ↔
      ((b, a) ∈ (jaccardQuery (joined_data ns cs lab)).map
        fun r => (r.label_A, r.label_B)))
  ∧ (∀ r s, r ∈ jaccardQuery (joined_data ns cs lab) →
      s ∈ jaccardQuery (joined_data ns cs lab) →
      r.label_A = a → r.label_B = b → s.label_A = b → s.label_B = a →
      r.intersection_count = s.intersection_count
      ∧ r.union_count = s.union_count
      ∧ r.jaccard_index = s.jaccard_index) := by
  constructor
  · rw [mem_key_jaccardQuery, mem_key_jaccardQuery]
    exact and_comm
  · intro r s hr hs hra hrb hsa hsb
    have hrspec := jaccardQuery_row_spec _ r hr
    have hsspec := jaccardQuery_row_spec _ s hs
    have hshared : sharedSeqCount (joined_data ns cs lab) a b =
        sharedSeqCount (joined_data ns cs lab) b a := by
      rw [sharedSeqCount, sharedSeqCount, Finset.inter_comm]
    have hi : r.intersection_count = s.intersection_count := by
      have e1 := hrspec.1
      have e2 := hsspec.1
      rw [hra, hrb] at e1
      rw [hsa, hsb] at e2
      rw [e1, e2, hshared]
    have hu : r.union_count = s.union_count := by
      have e1 := hrspec.2.1
      have e2 := hsspec.2.1
      rw [hra, hrb] at e1
      rw [hsa, hsb] at e2
      rw [e1, e2, hi]
      ring
    have hj : r.jaccard_index = s.jaccard_index := by
      have e1 := hrspec.2.2
      have e2 := hsspec.2.2
      rw [hra, hrb] at e1
      rw [hsa, hsb] at e2
      rw [e1, e2, if_neg hab, if_neg (show ¬ (b = a) from fun e => hab e.symm),
        hu, hi]
    exact ⟨hi, hu, hj⟩

/-- Witness for C8 on a concrete two-donor dataset with labels "Blood" and
"Breast". -/
theorem c8_witness :
    ((("Blood", "Breast") ∈ (jaccardQuery (joined_data
        [⟨"ACGT", "P1"⟩, ⟨"ACGT", "P2"⟩]
        [⟨"P1", "Blood", "Marrow"⟩, ⟨"P2", "Breast", "Chest"⟩]
        CancerTypeRow.cancer_Type)).map
        fun r => (r.label_A, r.label_B)) ↔
      (("Breast", "Blood") ∈ (jaccardQuery (joined_data
        [⟨"ACGT", "P1"⟩, ⟨"ACGT", "P2"⟩]
        [⟨"P1", "Blood", "Marrow"⟩, ⟨"P2", "Breast", "Chest"⟩]
        CancerTypeRow.cancer_Type)).map
        fun r => (r.label_A, r.label_B))) :=
  (c8_jaccard_symmetry
    [⟨"ACGT", "P1"⟩, ⟨"ACGT", "P2"⟩]
    [⟨"P1", "Blood", "Marrow"⟩, ⟨"P2", "Breast", "Chest"⟩]
    CancerTypeRow.cancer_Type "Blood" "Breast" (by decide)).1

/-- Witness for C1 on a concrete one-donor dataset. -/
theorem c1_witness :
    (((jaccardQuery (joined_data [⟨"ACGT", "P1"⟩]
        [⟨"P1", "Blood", "Marrow"⟩] CancerTypeRow.cancer_Type)).map
        fun r => (r.label_A, r.label_B)).Nodup)
  ∧ ((("Blood", "Blood") ∈ (jaccardQuery (joined_data [⟨"ACGT", "P1"⟩]
        [⟨"P1", "Blood", "Marrow"⟩] CancerTypeRow.cancer_Type)).map
        fun r => (r.label_A, r.label_B)) ↔
      ("Blood" ∈ (joined_data [⟨"ACGT", "P1"⟩]
        [⟨"P1", "Blood", "Marrow"⟩] CancerTypeRow.cancer_Type).map Prod.snd ∧
       "Blood" ∈ (joined_data [⟨"ACGT", "P1"⟩]
        [⟨"P1", "Blood", "Marrow"⟩] CancerTypeRow.cancer_Type).map Prod.snd)) := by
  have h := c1_jaccard_result_set [⟨"ACGT", "P1"⟩]
    [⟨"P1", "Blood", "Marrow"⟩] CancerTypeRow.cancer_Type
  exact ⟨h.1, h.2.1 "Blood" "Blood"⟩

end NeomerDB
